import Mathlib

/-!
Formal model of the authorization core of rosa-regional-frontend-api.

The development shallowly embeds the Go sources of the repository:

* pkg/authz/policy (types, validator, translator)  -- DSL v0 model,
  structural validation, and the pure v0 -> Cedar translator;
* pkg/authz/privileged/privileged.go               -- privileged checker;
* pkg/authz/authz.go                               -- the layered Authorize
  pipeline and the AVP request builder;
* pkg/authz/client/mock_avp.go                     -- the cedar-agent adapter.

Go strings are embedded as lists of characters (`Str`); Go maps are embedded
as association lists whose list order stands for the (unspecified) map
iteration order; fallible Go functions returning (T, error) are embedded as
`Except Str T`.  Store and evaluator I/O is embedded as oracle functions in a
`World`, and the pipeline additionally returns the list of I/O effects it
performed, in order, so that contact with the store or the evaluator is
observable in the model.
-/

set_option maxRecDepth 20000

/-- Str is the embedding of a Go string: its list of characters. -/
abbrev Str := List Char

/-- Embedding of Go strings.HasPrefix. -/
def hasPre (s pre : Str) : Bool := pre.isPrefixOf s

/-- Embedding of Go strings.TrimPrefix: drops pre when it is a prefix of s. -/
def trimPre (s pre : Str) : Str := if pre.isPrefixOf s then s.drop pre.length else s

/-- Embedding of Go strings.HasSuffix. -/
def hasSuf (s suf : Str) : Bool := suf.isSuffixOf s

/-- Embedding of Go strings.TrimSuffix: drops suf when it is a suffix of s. -/
def trimSuf (s suf : Str) : Str := if suf.isSuffixOf s then s.take (s.length - suf.length) else s

/-- Embedding of Go strings.Contains: sub occurs inside s. -/
def strContains (s sub : Str) : Bool :=
  (List.range (s.length + 1)).any (fun i => sub.isPrefixOf (s.drop i))

/-- Embedding of a Go interface value as decoded from JSON: a string, an
integer-valued number, a boolean, or an array of such values.  (The Go code
sees JSON numbers as float64; every number the translator accepts is used as
an integer, which is what this model represents.) -/
inductive GoVal where
  | str (s : Str)
  | int (n : Int)
  | bool (b : Bool)
  | arr (elems : List GoVal)

mutual

/-- Embedding of Go fmt %v formatting for the values of `GoVal`. -/
def fmtV : GoVal → Str
  | .str s => s
  | .int n => (toString n).toList
  | .bool b => (toString b).toList
  | .arr vs => '[' :: fmtVList vs ++ [']']

/-- Space-separated %v rendering of the elements of a Go slice. -/
def fmtVList : List GoVal → Str
  | [] => []
  | [v] => fmtV v
  | v :: rest => fmtV v ++ [' '] ++ fmtVList rest

end

/-- Embedding of the allActions catalog of pkg/authz/policy/translator.go:
the fixed list of ROSA action names, in source order. -/
def allActions : List Str :=
  ["CreateCluster", "DeleteCluster", "DescribeCluster", "ListClusters",
   "UpdateCluster", "UpdateClusterConfig", "UpdateClusterVersion",
   "CreateNodePool", "DeleteNodePool", "DescribeNodePool", "ListNodePools",
   "UpdateNodePool", "ScaleNodePool",
   "CreateAccessEntry", "DeleteAccessEntry", "DescribeAccessEntry",
   "ListAccessEntries", "UpdateAccessEntry",
   "TagResource", "UntagResource", "ListTagsForResource",
   "ListAccessPolicies"].map String.toList

/-- Embedding of Translator.expandAction: strips the rosa: namespace, expands
"*" to the whole catalog and a trailing-star pattern to the catalog actions
starting with the given stem, keeping the literal (star included) when no
catalog action matches. -/
def expandAction (action0 : Str) : List Str :=
  let action := trimPre action0 ("rosa:".toList)
  if action == "*".toList then allActions
  else if hasSuf action ("*".toList) then
    let pre := trimSuf action ("*".toList)
    let matching := allActions.filter (fun a => hasPre a pre)
    if matching.length > 0 then matching else [action]
  else [action]

/-- Embedding of policy.Statement (pkg/authz/policy types): sid, effect,
actions, resources and the conditions block.  The conditions Go map
(operator -> (key -> value)) is embedded as an association list whose order
stands for the Go map iteration order. -/
structure Statement where
  sid : Str
  effect : Str
  actions : List Str
  resources : List Str
  conditions : List (Str × List (Str × GoVal)) := []

/-- Embedding of policy.V0Policy: version plus the list of statements. -/
structure V0Policy where
  version : Str
  statements : List Statement

/-- Embedding of policy.ValidationError: a structured field path and a
human-readable message. -/
structure ValidationError where
  field : Str
  message : Str
deriving DecidableEq, Repr

/-- Embedding of the validator action regular expression
`^(\*|rosa:[A-Za-z\*]+)$`: either a lone star, or the rosa: namespace
followed by a non-empty run of ASCII letters and stars. -/
def actionPatternMatches (s : Str) : Bool :=
  s == "*".toList ||
  (hasPre s ("rosa:".toList) && decide ((s.drop 5) ≠ []) &&
    (s.drop 5).all (fun c => c.isAlpha || c == '*'))

/-- Embedding of the validator resource regular expression
`^(\*|arn:aws:rosa:([a-z0-9\-]+|\*):[0-9*]*:[a-z\-]+/.+)$`.  Because the
character classes of the region and account segments exclude the colon and
the type segment excludes the slash, the regex match is equivalent to this
deterministic split at the first colon, the next colon, and the first slash.
(The regex dot does not match a newline; inputs are newline-free here.) -/
def resourcePatternMatches (s : Str) : Bool :=
  s == "*".toList ||
  (hasPre s ("arn:aws:rosa:".toList) &&
    (let rest := s.drop 13
     let seg1 := rest.takeWhile (fun c => c ≠ ':')
     let rest1 := rest.dropWhile (fun c => c ≠ ':')
     (seg1 == "*".toList ||
       (decide (seg1 ≠ []) && seg1.all (fun c => c.isLower || c.isDigit || c == '-'))) &&
     match rest1 with
     | ':' :: rest2 =>
       let seg2 := rest2.takeWhile (fun c => c ≠ ':')
       let rest3 := rest2.dropWhile (fun c => c ≠ ':')
       seg2.all (fun c => c.isDigit || c == '*') &&
       (match rest3 with
        | ':' :: rest4 =>
          let seg3 := rest4.takeWhile (fun c => c ≠ '/')
          let rest5 := rest4.dropWhile (fun c => c ≠ '/')
          (decide (seg3 ≠ []) && seg3.all (fun c => c.isLower || c == '-')) &&
          (match rest5 with
           | '/' :: tail => decide (tail ≠ [])
           | _ => false)
        | _ => false)
     | _ => false))

/-- Embedding of Validator.isValidAction. -/
def isValidAction (action : Str) : Bool :=
  if action == "*".toList then true else actionPatternMatches action

/-- Embedding of Validator.isValidResource. -/
def isValidResource (resource : Str) : Bool :=
  if resource == "*".toList then true else resourcePatternMatches resource

/-- Embedding of the validOperators set of Validator.validateConditions: the
condition operators the validator accepts. -/
def validOperators : List Str :=
  ["StringEquals", "StringNotEquals", "StringLike", "StringNotLike",
   "ArnEquals", "ArnLike", "ArnNotEquals", "ArnNotLike", "Bool",
   "ForAllValues:StringEquals", "ForAnyValue:StringEquals"].map String.toList

/-- Embedding of Validator.isValidConditionKey: the exact supported keys and
the two supported tag-key families. -/
def isValidConditionKey (key : Str) : Bool :=
  (["rosa:TagKeys", "aws:PrincipalArn", "aws:PrincipalAccount",
    "rosa:principalArn"].map String.toList).contains key ||
  (["rosa:ResourceTag/", "rosa:RequestTag/"].map String.toList).any
    (fun p => hasPre key p)

/-- Embedding of Validator.validateConditions: an error per unsupported
operator (without visiting its keys) and an error per unsupported key of a
supported operator. -/
def validateConditions (conditions : List (Str × List (Str × GoVal))) (pre : Str) :
    List ValidationError :=
  match conditions with
  | [] => []
  | (operator, cond) :: rest =>
    if validOperators.contains operator then
      (cond.filter (fun kv => !(isValidConditionKey kv.1))).map
        (fun kv =>
          ⟨pre ++ ".conditions.".toList ++ operator,
           "unsupported condition key: ".toList ++ kv.1⟩) ++
      validateConditions rest pre
    else
      ⟨pre ++ ".conditions".toList,
       "unsupported condition operator: ".toList ++ operator⟩ ::
      validateConditions rest pre

/-- Embedding of Validator.validateStatement: duplicate-sid, effect, action,
resource and condition checks for one statement, collecting all errors. -/
def validateStatement (stmt : Statement) (index : Nat) (sids : List Str) :
    List ValidationError :=
  let pre := "statements[".toList ++ (toString index).toList ++ "]".toList
  (if stmt.sid ≠ [] ∧ sids.contains stmt.sid then
     [⟨pre ++ ".sid".toList, "duplicate sid: ".toList ++ stmt.sid⟩]
   else []) ++
  (if stmt.effect ≠ "Allow".toList ∧ stmt.effect ≠ "Deny".toList then
     [⟨pre ++ ".effect".toList,
       "invalid effect: ".toList ++ stmt.effect ++
       " (must be Allow or Deny)".toList⟩]
   else []) ++
  (if stmt.actions.isEmpty then
     [⟨pre ++ ".actions".toList, "at least one action is required".toList⟩]
   else []) ++
  ((stmt.actions.enum.filter (fun ja => !(isValidAction ja.2))).map
    (fun ja =>
      ⟨pre ++ ".actions[".toList ++ (toString ja.1).toList ++ "]".toList,
       "invalid action format: ".toList ++ ja.2⟩)) ++
  (if stmt.resources.isEmpty then
     [⟨pre ++ ".resources".toList, "at least one resource is required".toList⟩]
   else []) ++
  ((stmt.resources.enum.filter (fun jr => !(isValidResource jr.2))).map
    (fun jr =>
      ⟨pre ++ ".resources[".toList ++ (toString jr.1).toList ++ "]".toList,
       "invalid resource format: ".toList ++ jr.2⟩)) ++
  validateConditions stmt.conditions pre

/-- Sid bookkeeping of Validator.Validate: a non-empty sid is recorded in the
set of seen sids after its statement is validated. -/
def updateSids (stmt : Statement) (sids : List Str) : List Str :=
  if stmt.sid ≠ [] then sids ++ [stmt.sid] else sids

/-- Statement loop of Validator.Validate, threading the statement index and
the set of already-seen sids. -/
def validateStatements (stmts : List Statement) (index : Nat) (sids : List Str) :
    List ValidationError :=
  match stmts with
  | [] => []
  | stmt :: rest =>
    validateStatement stmt index sids ++
    validateStatements rest (index + 1) (updateSids stmt sids)

/-- Embedding of Validator.Validate.  The Go result pairs a Valid flag with
the error list and the flag is false exactly when errors were collected, so
the model returns the error list; ok means the empty list. -/
def Validate (policy : Option V0Policy) : List ValidationError :=
  match policy with
  | none => [⟨"policy".toList, "policy is nil".toList⟩]
  | some p =>
    (if p.version ≠ "v0".toList ∧ p.version ≠ [] then
       [⟨"version".toList,
         "unsupported version: ".toList ++ p.version ++
         " (expected v0 or empty)".toList⟩]
     else []) ++
    (if p.statements.isEmpty then
       [⟨"statements".toList, "at least one statement is required".toList⟩]
     else []) ++
    validateStatements p.statements 0 []

/-- Rendering of the Sprintf fragment \"%s\" or \"%v\": the value in double
quotes. -/
def quoted (s : Str) : Str := "\"".toList ++ s ++ "\"".toList

/-- Embedding of sanitizeKey (translator.go): non-alphanumeric,
non-underscore characters become underscores. -/
def sanitizeKey (key : Str) : Str :=
  key.map (fun c => if c.isAlphanum || c == '_' then c else '_')

/-- Embedding of Translator.translateConditionKey: maps the IAM-style
condition keys to Cedar attribute paths. -/
def translateConditionKey (key : Str) : Str :=
  if hasPre key ("rosa:ResourceTag/".toList) then
    "resource.tags[\"".toList ++ key.drop 17 ++ "\"]".toList
  else if hasPre key ("rosa:RequestTag/".toList) then
    "context.requestTags[\"".toList ++ key.drop 16 ++ "\"]".toList
  else if key == "rosa:TagKeys".toList then "context.tagKeys".toList
  else if key == "aws:PrincipalArn".toList || key == "rosa:principalArn".toList then
    "context.principalArn".toList
  else if key == "aws:PrincipalAccount".toList then "context.principalAccount".toList
  else "context.".toList ++ sanitizeKey key

/-- Embedding of Go strconv.ParseInt(s, 10, 64): an optional sign, a
non-empty run of decimal digits, and a 64-bit signed range check. -/
def parseInt64 (s : Str) : Option Int :=
  let core : Str → Int → Option Int := fun ds sign =>
    if ds ≠ [] ∧ ds.all Char.isDigit then
      let n : Int := sign * ((ds.foldl (fun acc c => acc * 10 + (c.toNat - '0'.toNat)) 0 : Nat) : Int)
      if -(2 ^ 63) ≤ n ∧ n ≤ 2 ^ 63 - 1 then some n else none
    else none
  match s with
  | '+' :: rest => core rest 1
  | '-' :: rest => core rest (-1)
  | _ => core s 1

/-- Embedding of Translator.translateStringEquals (also used for ArnEquals
and BinaryEquals): equality or, for arrays, an OR of equalities; negated, an
AND of inequalities. -/
def translateStringEquals (key : Str) (value : GoVal) (negate : Bool) : Except Str Str :=
  let cedarKey := translateConditionKey key
  let op := if negate then "!=".toList else "==".toList
  match value with
  | .str v => .ok (cedarKey ++ " ".toList ++ op ++ " ".toList ++ quoted v)
  | .arr v =>
    if negate then
      .ok (List.intercalate " && ".toList
        (v.map (fun val => cedarKey ++ " != ".toList ++ quoted (fmtV val))))
    else
      .ok ("(".toList ++
        List.intercalate " || ".toList
          (v.map (fun val => cedarKey ++ " == ".toList ++ quoted (fmtV val))) ++
        ")".toList)
  | _ => .ok (cedarKey ++ " ".toList ++ op ++ " ".toList ++ quoted (fmtV value))

/-- Embedding of Translator.buildLikeClause: a Cedar like clause with the IAM
question mark wildcard rewritten to a star. -/
def buildLikeClause (key pattern : Str) (negate : Bool) : Str :=
  let cedarPattern := pattern.map (fun c => if c == '?' then '*' else c)
  if negate then
    "!(".toList ++ key ++ " like ".toList ++ quoted cedarPattern ++ ")".toList
  else key ++ " like ".toList ++ quoted cedarPattern

/-- Embedding of Translator.translateStringLike (also ArnLike and their
negations). -/
def translateStringLike (key : Str) (value : GoVal) (negate : Bool) : Except Str Str :=
  let cedarKey := translateConditionKey key
  match value with
  | .str v => .ok (buildLikeClause cedarKey v negate)
  | .arr v =>
    let clauses := v.map (fun val => buildLikeClause cedarKey (fmtV val) negate)
    if negate then .ok (List.intercalate " && ".toList clauses)
    else .ok ("(".toList ++ List.intercalate " || ".toList clauses ++ ")".toList)
  | _ => .ok (buildLikeClause cedarKey (fmtV value) negate)

/-- Embedding of Translator.translateBool: true only for the boolean true or
the string true, false for everything else. -/
def translateBool (key : Str) (value : GoVal) : Except Str Str :=
  let cedarKey := translateConditionKey key
  let boolVal :=
    match value with
    | .bool true => "true".toList
    | .str s => if s == "true".toList then "true".toList else "false".toList
    | _ => "false".toList
  .ok (cedarKey ++ " == ".toList ++ boolVal)

/-- Embedding of Translator.translateForAllValues (ForAllValues:StringEquals):
requires an array value. -/
def translateForAllValues (key : Str) (value : GoVal) : Except Str Str :=
  let cedarKey := translateConditionKey key
  match value with
  | .arr values =>
    .ok (cedarKey ++ ".containsAll([".toList ++
      List.intercalate ", ".toList (values.map (fun v => quoted (fmtV v))) ++ "])".toList)
  | _ => .error "ForAllValues requires array value".toList

/-- Embedding of Translator.translateForAnyValue (ForAnyValue:StringEquals):
requires an array value. -/
def translateForAnyValue (key : Str) (value : GoVal) : Except Str Str :=
  let cedarKey := translateConditionKey key
  match value with
  | .arr values =>
    .ok (cedarKey ++ ".containsAny([".toList ++
      List.intercalate ", ".toList (values.map (fun v => quoted (fmtV v))) ++ "])".toList)
  | _ => .error "ForAnyValue requires array value".toList

/-- Embedding of Translator.translateForAllValuesNot
(ForAllValues:StringNotEquals). -/
def translateForAllValuesNot (key : Str) (value : GoVal) : Except Str Str :=
  let cedarKey := translateConditionKey key
  match value with
  | .arr values =>
    .ok ("!".toList ++ cedarKey ++ ".containsAny([".toList ++
      List.intercalate ", ".toList (values.map (fun v => quoted (fmtV v))) ++ "])".toList)
  | _ => .error "ForAllValues:StringNotEquals requires array value".toList

/-- Embedding of Translator.translateForAnyValueNot
(ForAnyValue:StringNotEquals). -/
def translateForAnyValueNot (key : Str) (value : GoVal) : Except Str Str :=
  let cedarKey := translateConditionKey key
  match value with
  | .arr values =>
    .ok ("!".toList ++ cedarKey ++ ".containsAll([".toList ++
      List.intercalate ", ".toList (values.map (fun v => quoted (fmtV v))) ++ "])".toList)
  | _ => .error "ForAnyValue:StringNotEquals requires array value".toList

/-- Pattern disjunction shared by the embeddings of
translateForAllValuesLike and translateForAnyValueLike. -/
def likePatternClauses (cedarKey : Str) (patterns : List Str) : Str :=
  let patternClauses :=
    patterns.map (fun p =>
      cedarKey ++ " like ".toList ++ quoted (p.map (fun c => if c == '?' then '*' else c)))
  match patternClauses with
  | [c] => c
  | _ => "(".toList ++ List.intercalate " || ".toList patternClauses ++ ")".toList

/-- Embedding of Translator.translateForAllValuesLike
(ForAllValues:StringLike): accepts a string or an array. -/
def translateForAllValuesLike (key : Str) (value : GoVal) : Except Str Str :=
  let cedarKey := translateConditionKey key
  match value with
  | .str v => .ok (likePatternClauses cedarKey [v])
  | .arr v => .ok (likePatternClauses cedarKey (v.map fmtV))
  | _ => .error "ForAllValues:StringLike requires string or array value".toList

/-- Embedding of Translator.translateForAnyValueLike
(ForAnyValue:StringLike): accepts a string or an array. -/
def translateForAnyValueLike (key : Str) (value : GoVal) : Except Str Str :=
  let cedarKey := translateConditionKey key
  match value with
  | .str v => .ok (likePatternClauses cedarKey [v])
  | .arr v => .ok (likePatternClauses cedarKey (v.map fmtV))
  | _ => .error "ForAnyValue:StringLike requires string or array value".toList

/-- Embedding of Translator.translateNumeric: integer values pass through,
strings are parsed base 10 into 64 bits, everything else is rejected. -/
def translateNumeric (key : Str) (value : GoVal) (op : Str) : Except Str Str :=
  let cedarKey := translateConditionKey key
  match value with
  | .int n => .ok (cedarKey ++ " ".toList ++ op ++ " ".toList ++ (toString n).toList)
  | .str s =>
    match parseInt64 s with
    | some n => .ok (cedarKey ++ " ".toList ++ op ++ " ".toList ++ (toString n).toList)
    | none => .error ("invalid numeric value: ".toList ++ s)
  | _ => .error "unsupported numeric value type".toList

/-- Embedding of Translator.translateDate: the value must be a string. -/
def translateDate (key : Str) (value : GoVal) (op : Str) : Except Str Str :=
  let cedarKey := translateConditionKey key
  match value with
  | .str dateStr =>
    .ok ("datetime(".toList ++ cedarKey ++ ") ".toList ++ op ++ " datetime(".toList ++
      quoted dateStr ++ ")".toList)
  | _ => .error "date value must be a string".toList

/-- Embedding of Translator.buildIpClause. -/
def buildIpClause (key ipOrCidr : Str) (negate : Bool) : Str :=
  if negate then
    "!ip(".toList ++ key ++ ").isInRange(ip(".toList ++ quoted ipOrCidr ++ "))".toList
  else "ip(".toList ++ key ++ ").isInRange(ip(".toList ++ quoted ipOrCidr ++ "))".toList

/-- Embedding of Translator.translateIpAddress (and NotIpAddress). -/
def translateIpAddress (key : Str) (value : GoVal) (negate : Bool) : Except Str Str :=
  let cedarKey := translateConditionKey key
  match value with
  | .str v => .ok (buildIpClause cedarKey v negate)
  | .arr v =>
    let clauses := v.map (fun val => buildIpClause cedarKey (fmtV val) negate)
    if negate then .ok (List.intercalate " && ".toList clauses)
    else .ok ("(".toList ++ List.intercalate " || ".toList clauses ++ ")".toList)
  | _ => .ok (buildIpClause cedarKey (fmtV value) negate)

/-- Embedding of Translator.translateNull: Null true compiles to absence,
Null false to presence of the key. -/
def translateNull (key : Str) (value : GoVal) : Except Str Str :=
  let cedarKey := translateConditionKey key
  match value with
  | .bool b =>
    .ok (if b then "!has ".toList ++ cedarKey else "has ".toList ++ cedarKey)
  | .str s =>
    .ok (if s == "true".toList then "!has ".toList ++ cedarKey else "has ".toList ++ cedarKey)
  | _ => .error "Null condition value must be boolean or string".toList

/-- Recursion core of Translator.translateCondition.  The Go function
recurses through translateIfExists on the operator with the IfExists suffix
removed; the body of translateIfExists is inlined at its single call site
here, and the recursion is embedded with a fuel counter, each step consuming
one unit while shortening the operator by eight characters, so a fuel of
(operator length + 1) can never run out (the fuel-zero branch is
unreachable). -/
def translateConditionF (fuel : Nat) (operator : Str) (key : Str) (value : GoVal) :
    Except Str Str :=
  match fuel with
  | 0 => .error "out of fuel".toList
  | fuel + 1 =>
  if hasSuf operator ("IfExists".toList) then
    let cedarKey := translateConditionKey key
    match translateConditionF fuel (trimSuf operator ("IfExists".toList)) key value with
    | .error e =>
      .error ("failed to translate base condition for IfExists: ".toList ++ e)
    | .ok baseCondition =>
      .ok ("(!has ".toList ++ cedarKey ++ " || (".toList ++ baseCondition ++ "))".toList)
  else if operator == "StringEquals".toList then translateStringEquals key value false
  else if operator == "StringNotEquals".toList then translateStringEquals key value true
  else if operator == "StringLike".toList || operator == "ArnLike".toList then
    translateStringLike key value false
  else if operator == "StringNotLike".toList || operator == "ArnNotLike".toList then
    translateStringLike key value true
  else if operator == "ArnEquals".toList then translateStringEquals key value false
  else if operator == "ArnNotEquals".toList then translateStringEquals key value true
  else if operator == "Bool".toList then translateBool key value
  else if operator == "NumericEquals".toList then translateNumeric key value ("==".toList)
  else if operator == "NumericNotEquals".toList then translateNumeric key value ("!=".toList)
  else if operator == "NumericLessThan".toList then translateNumeric key value ("<".toList)
  else if operator == "NumericLessThanEquals".toList then translateNumeric key value ("<=".toList)
  else if operator == "NumericGreaterThan".toList then translateNumeric key value (">".toList)
  else if operator == "NumericGreaterThanEquals".toList then translateNumeric key value (">=".toList)
  else if operator == "DateEquals".toList then translateDate key value ("==".toList)
  else if operator == "DateNotEquals".toList then translateDate key value ("!=".toList)
  else if operator == "DateLessThan".toList then translateDate key value ("<".toList)
  else if operator == "DateLessThanEquals".toList then translateDate key value ("<=".toList)
  else if operator == "DateGreaterThan".toList then translateDate key value (">".toList)
  else if operator == "DateGreaterThanEquals".toList then translateDate key value (">=".toList)
  else if operator == "IpAddress".toList then translateIpAddress key value false
  else if operator == "NotIpAddress".toList then translateIpAddress key value true
  else if operator == "BinaryEquals".toList then translateStringEquals key value false
  else if operator == "Null".toList then translateNull key value
  else if operator == "ForAllValues:StringEquals".toList then translateForAllValues key value
  else if operator == "ForAnyValue:StringEquals".toList then translateForAnyValue key value
  else if operator == "ForAllValues:StringNotEquals".toList then translateForAllValuesNot key value
  else if operator == "ForAnyValue:StringNotEquals".toList then translateForAnyValueNot key value
  else if operator == "ForAllValues:StringLike".toList then translateForAllValuesLike key value
  else if operator == "ForAnyValue:StringLike".toList then translateForAnyValueLike key value
  else .error ("unsupported condition operator: ".toList ++ operator)

/-- Embedding of Translator.translateCondition, with enough fuel for any
chain of IfExists suffixes in the operator. -/
def translateCondition (operator : Str) (key : Str) (value : GoVal) : Except Str Str :=
  translateConditionF (operator.length + 1) operator key value

/-- Embedding of Translator.translateIfExists: the condition passes when the
key is absent, otherwise the base condition (translated by
translateCondition) applies. -/
def translateIfExists (baseOperator : Str) (key : Str) (value : GoVal) : Except Str Str :=
  let cedarKey := translateConditionKey key
  match translateCondition baseOperator key value with
  | .error e =>
    .error ("failed to translate base condition for IfExists: ".toList ++ e)
  | .ok baseCondition =>
    .ok ("(!has ".toList ++ cedarKey ++ " || (".toList ++ baseCondition ++ "))".toList)

-- Decidable equality for Except results, used to evaluate the translator on
-- concrete inputs.
deriving instance DecidableEq for Except

/-- Inner key loop of Translator.buildWhenClause for one operator: each
(key, value) pair is translated and non-empty clauses are collected; the
first error aborts. -/
def condKeyClauses (operator : Str) (cond : List (Str × GoVal)) : Except Str (List Str) :=
  match cond with
  | [] => .ok []
  | (key, value) :: rest =>
    match translateCondition operator key value with
    | .error e => .error e
    | .ok clause =>
      match condKeyClauses operator rest with
      | .error e => .error e
      | .ok others => .ok (if clause ≠ [] then clause :: others else others)

/-- Outer operator loop of Translator.buildWhenClause.  The Go loop ranges
over a map; the association-list order of this model stands for the map
iteration order, which Go leaves unspecified. -/
def condClauses (conditions : List (Str × List (Str × GoVal))) : Except Str (List Str) :=
  match conditions with
  | [] => .ok []
  | (operator, cond) :: rest =>
    match condKeyClauses operator cond with
    | .error e => .error e
    | .ok cs =>
      match condClauses rest with
      | .error e => .error e
      | .ok others => .ok (cs ++ others)

/-- Embedding of Translator.buildWhenClause: the AND-join of the collected
clauses, the empty string when there are none. -/
def buildWhenClause (conditions : List (Str × List (Str × GoVal))) : Except Str Str :=
  match condClauses conditions with
  | .error e => .error e
  | .ok clauses =>
    if clauses.isEmpty then .ok [] else .ok (List.intercalate " && ".toList clauses)

/-- Set insertion of buildActionClause: the Go code inserts each expanded
action into a map used as a set; the model keeps first-insertion order (the
Go map iteration order is unspecified). -/
def insertActionSet (acc : List Str) (a : Str) : List Str :=
  if acc.contains a then acc else acc ++ [a]

/-- Embedding of Translator.buildActionClause: empty action lists are
rejected, the lone star keeps the bare action scope, otherwise patterns are
catalog-expanded, deduplicated, and rendered as an equality or a membership
list. -/
def buildActionClause (actions : List Str) : Except Str Str :=
  if actions.isEmpty then .error "no actions specified".toList
  else if actions = ["*".toList] then .ok "action".toList
  else
    let expanded :=
      actions.foldl (fun acc action => (expandAction action).foldl insertActionSet acc) []
    match expanded with
    | [a] => .ok ("action == ROSA::Action::".toList ++ quoted a)
    | _ =>
      .ok ("action in [".toList ++
        List.intercalate ", ".toList
          (expanded.map (fun a => "ROSA::Action::".toList ++ quoted a)) ++
        "]".toList)

/-- Embedding of Translator.buildResourceClauses: returns the scope clause
and the extra when-clause produced by wildcard resource patterns. -/
def buildResourceClauses (resources : List Str) : Str × Str :=
  if resources.isEmpty || resources = ["*".toList] then ("resource".toList, [])
  else
    let exactMatches := resources.filter (fun r => !(strContains r ("*".toList)))
    let wildcardPatterns := resources.filter (fun r => strContains r ("*".toList))
    if !wildcardPatterns.isEmpty then
      let conditions :=
        exactMatches.map (fun r => "resource.arn == ".toList ++ quoted r) ++
        wildcardPatterns.map (fun p => "resource.arn like ".toList ++ quoted p)
      match conditions with
      | [c] => ("resource".toList, c)
      | _ =>
        ("resource".toList,
         "(".toList ++ List.intercalate " || ".toList conditions ++ ")".toList)
    else
      match exactMatches with
      | [r] => ("resource == ROSA::Resource::".toList ++ quoted r, [])
      | _ =>
        ("resource in [".toList ++
         List.intercalate ", ".toList
           (exactMatches.map (fun r => "ROSA::Resource::".toList ++ quoted r)) ++
         "]".toList, [])

/-- Embedding of Translator.buildPrincipalClause: equality for a user
binding, group membership for a group binding, the bare scope otherwise. -/
def buildPrincipalClause (principalType principalID : Str) : Str :=
  if principalType == "user".toList then
    "principal == ROSA::Principal::".toList ++ quoted principalID
  else if principalType == "group".toList then
    "principal in ROSA::Group::".toList ++ quoted principalID
  else "principal".toList

/-- Embedding of Translator.translateStatement: effect keyword, the three
scope clauses, and the combined when clause from resource wildcards and the
condition block. -/
def translateStatement (stmt : Statement) (principalType principalID : Str) :
    Except Str Str :=
  let cedarEffect :=
    if stmt.effect == "Allow".toList then "permit".toList
    else if stmt.effect == "Deny".toList then "forbid".toList
    else "permit".toList
  let principalClause := buildPrincipalClause principalType principalID
  match buildActionClause stmt.actions with
  | .error e => .error e
  | .ok actionClause =>
    let (resourceScope, resourceCondition) := buildResourceClauses stmt.resources
    let whenClauses0 := if resourceCondition ≠ [] then [resourceCondition] else []
    let whenClausesE : Except Str (List Str) :=
      if !stmt.conditions.isEmpty then
        match buildWhenClause stmt.conditions with
        | .error e => .error e
        | .ok whenClause =>
          .ok (if whenClause ≠ [] then whenClauses0 ++ [whenClause] else whenClauses0)
      else .ok whenClauses0
    match whenClausesE with
    | .error e => .error e
    | .ok whenClauses =>
      .ok (cedarEffect ++ " (\n  ".toList ++ principalClause ++ ",\n  ".toList ++
        actionClause ++ ",\n  ".toList ++ resourceScope ++ "\n)".toList ++
        (if whenClauses ≠ [] then
          "\nwhen \x7b\n  ".toList ++ List.intercalate " && ".toList whenClauses ++
          "\n\x7d".toList
         else []) ++ ";".toList)

/-- Statement loop of Translator.TranslateWithPrincipal: a failed statement
aborts with its sid in the error. -/
def translateStatements (stmts : List Statement) (principalType principalID : Str) :
    Except Str (List Str) :=
  match stmts with
  | [] => .ok []
  | stmt :: rest =>
    match translateStatement stmt principalType principalID with
    | .error e =>
      .error ("failed to translate statement ".toList ++ stmt.sid ++ ": ".toList ++ e)
    | .ok cedarPolicy =>
      match translateStatements rest principalType principalID with
      | .error e => .error e
      | .ok cs => .ok (cedarPolicy :: cs)

/-- Embedding of Translator.TranslateWithPrincipal: one Cedar rule text per
statement, in statement order. -/
def TranslateWithPrincipal (policy : V0Policy) (principalType principalID : Str) :
    Except Str (List Str) :=
  translateStatements policy.statements principalType principalID

/-- Embedding of the AVP EntityIdentifier (entity type plus entity id). -/
structure EntityIdentifier where
  entityType : Str
  entityId : Str
deriving DecidableEq, Repr

/-- Embedding of the AVP ActionIdentifier. -/
structure ActionIdentifier where
  actionType : Str
  actionId : Str
deriving DecidableEq, Repr

/-- Embedding of the AVP AttributeValue union: the string, record and set
members used by buildAVPRequest. -/
inductive AttrValue where
  | str (s : Str)
  | record (fields : List (Str × AttrValue))
  | setV (items : List AttrValue)

/-- Embedding of the AVP EntityItem.  The Go SDK struct has Identifier,
Attributes and Parents fields; buildAVPRequest never assigns Parents, so an
item built without it carries the zero value, the empty list. -/
structure EntityItem where
  identifier : EntityIdentifier
  attributes : List (Str × AttrValue) := []
  parents : List EntityIdentifier := []

/-- Embedding of the AVP IsAuthorizedInput assembled by buildAVPRequest.
The Go SDK fields are pointers; buildAVPRequest always sets all of them, so
the model makes them plain fields. -/
structure IsAuthorizedInput where
  policyStoreId : Str
  principal : EntityIdentifier
  action : ActionIdentifier
  resource : EntityIdentifier
  contextMap : List (Str × AttrValue)
  entities : List EntityItem

/-- Embedding of authz.AuthzRequest.  The Go tag and context maps are
embedded as association lists whose order stands for the unspecified map
iteration order. -/
structure AuthzRequest where
  accountID : Str
  callerARN : Str
  action : Str
  resource : Str
  resourceTags : List (Str × Str) := []
  requestTags : List (Str × Str) := []
  context : List (Str × GoVal) := []

/-- Embedding of authorizerImpl.buildAVPRequest: principal, action and
resource identifiers, the context map (principal info, request tags, tag
keys, string-valued caller context), and the entity list holding the
principal item, one item per group, and, when resource tags are present, the
resource item carrying its tags.  No Parents field is ever assigned. -/
def buildAVPRequest (req : AuthzRequest) (groups : List Str) (policyStoreID : Str) :
    IsAuthorizedInput :=
  let principal : EntityIdentifier := ⟨"ROSA::Principal".toList, req.callerARN⟩
  let action : ActionIdentifier := ⟨"ROSA::Action".toList, req.action⟩
  let resource : EntityIdentifier := ⟨"ROSA::Resource".toList, req.resource⟩
  let contextMap :=
    [("principalArn".toList, AttrValue.str req.callerARN),
     ("principalAccount".toList, AttrValue.str req.accountID)] ++
    (if !req.requestTags.isEmpty then
       [("requestTags".toList,
         AttrValue.record (req.requestTags.map (fun kv => (kv.1, AttrValue.str kv.2))))]
     else []) ++
    (if !req.requestTags.isEmpty then
       [("tagKeys".toList,
         AttrValue.setV (req.requestTags.map (fun kv => AttrValue.str kv.1)))]
     else []) ++
    (req.context.filterMap (fun kv =>
      match kv.2 with
      | .str s => some (kv.1, AttrValue.str s)
      | _ => none))
  let entities :=
    ({ identifier := principal } : EntityItem) ::
    (groups.map (fun groupID =>
      ({ identifier := ⟨"ROSA::Group".toList, groupID⟩ } : EntityItem))) ++
    (if !req.resourceTags.isEmpty then
       [({ identifier := resource,
           attributes :=
             [("tags".toList,
               AttrValue.record (req.resourceTags.map (fun kv => (kv.1, AttrValue.str kv.2))))] } :
         EntityItem)]
     else [])
  ⟨policyStoreID, principal, action, resource, contextMap, entities⟩

/-- Entity of the cedar-agent is_authorized wire format: a rendered uid,
attribute strings, and parent uids. -/
structure CedarEntity where
  uid : Str
  attrs : List (Str × Str) := []
  parents : List Str := []
deriving DecidableEq, Repr

/-- Request of the cedar-agent is_authorized wire format as assembled by
MockAVPClient.buildCedarAgentRequest; the context is carried over from the
AVP input (its JSON conversion is structure-preserving). -/
structure CedarAgentRequest where
  principal : Str
  action : Str
  resource : Str
  context : List (Str × AttrValue)
  entities : List CedarEntity

/-- Rendering of the Sprintf fragment %s::\"%s\" used for cedar-agent uids. -/
def mkUID (entityType entityId : Str) : Str :=
  entityType ++ "::".toList ++ quoted entityId

/-- Group test of the entity loop of buildCedarAgentRequest. -/
def isGroupEntity (e : EntityItem) : Bool :=
  e.identifier.entityType == "ROSA::Group".toList ||
  e.identifier.entityType == "Group".toList

/-- Embedding of MockAVPClient.buildCedarAgentRequest: rendered principal,
action (rosa: prefix stripped) and resource uids, one cedar entity per group
item of the input, the principal entity with the group uids as parents when
both exist, and the resource entity carrying its arn as attribute. -/
def buildCedarAgentRequest (params : IsAuthorizedInput) : CedarAgentRequest :=
  let principalUID := mkUID params.principal.entityType params.principal.entityId
  let actionID := trimPre params.action.actionId ("rosa:".toList)
  let groupItems := params.entities.filter isGroupEntity
  let groupUIDs :=
    groupItems.map (fun e => mkUID e.identifier.entityType e.identifier.entityId)
  let entities :=
    groupItems.map (fun e =>
      ({ uid := mkUID e.identifier.entityType e.identifier.entityId,
         attrs := [], parents := [] } : CedarEntity)) ++
    (if principalUID ≠ [] ∧ ¬groupUIDs.isEmpty then
       [({ uid := principalUID, attrs := [], parents := groupUIDs } : CedarEntity)]
     else []) ++
    [({ uid := mkUID params.resource.entityType params.resource.entityId,
        attrs := [("arn".toList, params.resource.entityId)],
        parents := [] } : CedarEntity)]
  ⟨principalUID, mkUID ("ROSA::Action".toList) actionID,
   mkUID params.resource.entityType params.resource.entityId,
   params.contextMap, entities⟩

/-- Embedding of authz.Config (pkg/authz/config.go).  Only the fields the
modeled code paths read are carried; enabled is the Cedar/AVP enable flag. -/
structure Config where
  awsRegion : Str := []
  privilegedAccountsFile : Str := []
  enabled : Bool := true
deriving DecidableEq, Repr

/-- Account row of the accounts table (pkg/authz/store), as read by the
pipeline. -/
structure Account where
  accountID : Str
  privileged : Bool := false
  policyStoreID : Str := []
deriving DecidableEq, Repr

/-- AVP decision values. -/
inductive Decision where
  | allow
  | deny
deriving DecidableEq, Repr

/-- I/O effects the pipeline can perform, in the order they are issued.
dbGetPrivileged is the DynamoDB GetItem on the accounts table issued by
privileged.Checker.isPrivilegedInDB; dbGetAccount, dbIsAdmin and
dbGetUserGroups are the store reads of authorizerImpl.Authorize;
avpIsAuthorized is the evaluator query. -/
inductive Effect where
  | dbGetPrivileged (accountID : Str)
  | dbGetAccount (accountID : Str)
  | dbIsAdmin (accountID callerARN : Str)
  | dbGetUserGroups (accountID callerARN : Str)
  | avpIsAuthorized
deriving DecidableEq, Repr

/-- Oracle world for the pipeline: the privileged configmap cache (none when
loading failed), the outcome of each store read, and the evaluator decision.
Each store or evaluator call either returns a value or fails with a
transport error (modeled by Except Unit). -/
structure World where
  configmap : Option (List Str)
  getPrivileged : Str → Except Unit (Option Bool)
  getAccount : Str → Except Unit (Option Account)
  isAdmin : Str → Str → Except Unit Bool
  getUserGroups : Str → Str → Except Unit (List Str)
  avpDecision : IsAuthorizedInput → Except Unit Decision

/-- Embedding of privileged.Checker.isInConfigmap: pure lookup in the cached
configmap; a failed load counts as not contained. -/
def isInConfigmap (w : World) (accountID : Str) : Bool :=
  match w.configmap with
  | none => false
  | some accounts => accounts.contains accountID

/-- Embedding of privileged.Checker.IsPrivileged: the configmap check first
(no I/O), then the DynamoDB read of the privileged attribute of the account
row (an absent row reads as false).  Returns the issued effects and the
result. -/
def checkerIsPrivileged (w : World) (accountID : Str) :
    List Effect × Except Unit Bool :=
  if isInConfigmap w accountID then ([], .ok true)
  else
    ([.dbGetPrivileged accountID],
     match w.getPrivileged accountID with
     | .error e => .error e
     | .ok none => .ok false
     | .ok (some privileged) => .ok privileged)

/-- Return-site tags of authorizerImpl.Authorize, matching its log lines:
the privileged bypass, the admin bypass, and the evaluator decision. -/
inductive Source where
  | privileged
  | admin
  | evaluator
deriving DecidableEq, Repr

/-- Result of authorizerImpl.Authorize.  The Go function returns
(bool, error); allow src is (true, nil) at the return site src, deny is
(false, nil) from the evaluator, notProvisioned is the distinct
account-not-provisioned error of the provisioning gate, and transportError
is any other error. -/
inductive Outcome where
  | allow (src : Source)
  | deny
  | notProvisioned
  | transportError
deriving DecidableEq, Repr

/-- Embedding of authorizerImpl.Authorize: the privileged check, the
provisioning gate, the admin check, the group-membership read, then the
evaluator on the built request; each guard short-circuits.  The effect list
records every store and evaluator contact in order. -/
def Authorize (cfg : Config) (w : World) (req : AuthzRequest) :
    List Effect × Outcome :=
  let (t1, privResult) := checkerIsPrivileged w req.accountID
  match privResult with
  | .error _ => (t1, .transportError)
  | .ok true => (t1, .allow .privileged)
  | .ok false =>
    let t2 := t1 ++ [.dbGetAccount req.accountID]
    match w.getAccount req.accountID with
    | .error _ => (t2, .transportError)
    | .ok none => (t2, .notProvisioned)
    | .ok (some account) =>
      let t3 := t2 ++ [.dbIsAdmin req.accountID req.callerARN]
      match w.isAdmin req.accountID req.callerARN with
      | .error _ => (t3, .transportError)
      | .ok true => (t3, .allow .admin)
      | .ok false =>
        let t4 := t3 ++ [.dbGetUserGroups req.accountID req.callerARN]
        match w.getUserGroups req.accountID req.callerARN with
        | .error _ => (t4, .transportError)
        | .ok groups =>
          let avpReq := buildAVPRequest req groups account.policyStoreID
          let t5 := t4 ++ [.avpIsAuthorized]
          match w.avpDecision avpReq with
          | .error _ => (t5, .transportError)
          | .ok decision =>
            (t5, if decision = .allow then .allow .evaluator else .deny)

/-- Policy store of a cedar-agent instance: the stored (id, content) pairs,
in storage order. -/
structure AgentState where
  policies : List (Str × Str)
deriving DecidableEq, Repr

/-- HTTP calls the cedar-agent adapter issues against /v1/policies: the bulk
replace (PUT) and the single-policy add (POST). -/
inductive AgentCall where
  | putPolicies (policies : List (Str × Str))
  | postPolicy (policyID content : Str)
deriving DecidableEq, Repr

/-- Embedding of MockAVPClient.clearPolicies: PUT /v1/policies with the empty
list, leaving the agent with no policies.  The call can fail (a transport
error or a non-200 status, the clearOk flag); a failed call leaves the
agent state unchanged and reports the error. -/
def clearPolicies (st : AgentState) (clearOk : Bool) :
    AgentState × List AgentCall × Except Unit Unit :=
  if clearOk then (⟨[]⟩, [.putPolicies []], .ok ())
  else (st, [.putPolicies []], .error ())

/-- Embedding of MockAVPClient.postPolicy: POST /v1/policies appends the
policy to the agent store; a failed call (transport error or bad status,
the postOk flag) leaves the state unchanged and reports the error. -/
def postPolicy (st : AgentState) (postOk : Bool) (policyID content : Str) :
    AgentState × List AgentCall × Except Unit Unit :=
  if postOk then
    (⟨st.policies ++ [(policyID, content)]⟩, [.postPolicy policyID content], .ok ())
  else (st, [.postPolicy policyID content], .error ())

/-- Embedding of MockAVPClient.CreatePolicy: clear all existing policies
first, then post the new policy.  A clear failure is only logged (the Go
code warns and continues), so the post proceeds on the uncleared state; a
post failure is returned as the error of the whole call.  Returns the final
agent state, the calls issued in order, and the result. -/
def mockCreatePolicy (st : AgentState) (clearOk postOk : Bool)
    (policyID cedarPolicy : Str) :
    AgentState × List AgentCall × Except Unit Unit :=
  let (st1, calls1, _clearRes) := clearPolicies st clearOk
  let (st2, calls2, postRes) := postPolicy st1 postOk policyID cedarPolicy
  match postRes with
  | .error e => (st2, calls1 ++ calls2, .error e)
  | .ok _ => (st2, calls1 ++ calls2, .ok ())

/-- Attachment row of the attachments table (pkg/authz/store/attachments.go). -/
structure Attachment where
  attachmentID : Str
  policyID : Str
  targetType : Str
  targetID : Str
  avpPolicyID : Str
deriving DecidableEq, Repr

/-- Calls authorizerImpl.UpdatePolicy could issue: the template-row update it
performs, and the attachment listing and evaluator policy updates it would
need for propagating the new document to existing attachments. -/
inductive UpdateCall where
  | storeUpdatePolicy (accountID policyID : Str)
  | storeListAttachmentsByPolicy (accountID policyID : Str)
  | avpUpdatePolicy (avpPolicyID : Str)
deriving DecidableEq, Repr

/-- Result of authorizerImpl.UpdatePolicy in the model: validation failure or
success. -/
inductive UpdateResult where
  | invalidPolicy
  | ok
deriving DecidableEq, Repr

/-- World for UpdatePolicy: the attachments currently recorded for each
(account, policy) pair. -/
structure UpdateWorld where
  attachmentsByPolicy : Str → Str → List Attachment

/-- Embedding of authorizerImpl.UpdatePolicy: validate the document, then
update the template row.  The source carries the comment
`TODO: Update all attachments in AVP with new policy` at this point and
issues no attachment listing and no evaluator call. -/
def UpdatePolicy (w : UpdateWorld) (accountID policyID name description : Str)
    (v0Policy : Option V0Policy) : List UpdateCall × UpdateResult :=
  if !(Validate v0Policy).isEmpty then ([], .invalidPolicy)
  else ([.storeUpdatePolicy accountID policyID], .ok)

/-- Boolean array test on Go values, used to phrase the set-operator
array-value side condition. -/
def isArr : GoVal → Bool
  | .arr _ => true
  | _ => false

/-- Concrete sample document: a single Allow statement for
rosa:ListClusters on every resource; it passes validation. -/
def docListClusters : V0Policy :=
  ⟨"v0".toList,
   [⟨"AllowListClusters".toList, "Allow".toList,
     ["rosa:ListClusters".toList], ["*".toList], []⟩]⟩

/-- Concrete document whose only condition is ForAllValues:StringEquals with
a scalar (non-array) value on a supported key. -/
def docForAllValuesScalar : V0Policy :=
  ⟨"v0".toList,
   [⟨"A".toList, "Allow".toList, ["rosa:ListClusters".toList], ["*".toList],
     [("ForAllValues:StringEquals".toList,
       [("rosa:TagKeys".toList, GoVal.str ("Env".toList))])]⟩]⟩

/-- Concrete document whose only condition is ForAllValues:StringEquals with
an array value on a supported key. -/
def docForAllValuesArr : V0Policy :=
  ⟨"v0".toList,
   [⟨"A".toList, "Allow".toList, ["rosa:TagResource".toList], ["*".toList],
     [("ForAllValues:StringEquals".toList,
       [("rosa:TagKeys".toList,
         GoVal.arr [GoVal.str ("Env".toList), GoVal.str ("Owner".toList)])])]⟩]⟩

/-- Concrete document with a NumericEquals condition on a supported key
(an operator the translator implements). -/
def docNumericEquals : V0Policy :=
  ⟨"v0".toList,
   [⟨"A".toList, "Allow".toList, ["rosa:ListClusters".toList], ["*".toList],
     [("NumericEquals".toList,
       [("aws:PrincipalAccount".toList, GoVal.int 100)])]⟩]⟩

/-- Concrete document with a StringEqualsIfExists condition on a supported
key (a suffixed operator the translator implements). -/
def docIfExists : V0Policy :=
  ⟨"v0".toList,
   [⟨"A".toList, "Allow".toList, ["rosa:ListClusters".toList], ["*".toList],
     [("StringEqualsIfExists".toList,
       [("rosa:ResourceTag/Environment".toList, GoVal.str ("dev".toList))])]⟩]⟩

/-- Condition entry pair used to exhibit map-iteration-order dependence. -/
def condEntryA : Str × List (Str × GoVal) :=
  ("StringEquals".toList, [("aws:PrincipalAccount".toList, GoVal.str ("111122223333".toList))])

/-- Second condition entry pair for the map-iteration-order example. -/
def condEntryB : Str × List (Str × GoVal) :=
  ("Bool".toList, [("aws:PrincipalArn".toList, GoVal.bool true)])

/-- Statement with the two condition operators in one order. -/
def stmtCondAB : Statement :=
  ⟨"S".toList, "Allow".toList, ["rosa:ListClusters".toList], ["*".toList],
   [condEntryA, condEntryB]⟩

/-- The same statement with the two condition operators in the other order. -/
def stmtCondBA : Statement :=
  ⟨"S".toList, "Allow".toList, ["rosa:ListClusters".toList], ["*".toList],
   [condEntryB, condEntryA]⟩

/-- Concrete account id used by the pipeline scenarios. -/
def acct0 : Str := "777788889999".toList

/-- Concrete caller ARN used by the pipeline scenarios. -/
def caller0 : Str := "arn:aws:iam::777788889999:user/alice".toList

/-- Concrete authorization request used by the pipeline scenarios. -/
def req0 : AuthzRequest :=
  { accountID := acct0, callerARN := caller0,
    action := "ListClusters".toList, resource := "*".toList }

/-- Disabled configuration (enabled = false). -/
def cfgDisabled : Config := { enabled := false }

/-- World in which the account is neither in the configmap nor in the
database at all. -/
def wNotProvisioned : World :=
  { configmap := some []
    getPrivileged := fun _ => .ok none
    getAccount := fun _ => .ok none
    isAdmin := fun _ _ => .ok false
    getUserGroups := fun _ _ => .ok []
    avpDecision := fun _ => .ok .deny }

/-- World in which the account is absent from the configmap but its account
row carries privileged = true. -/
def wDbPrivileged : World :=
  { configmap := some []
    getPrivileged := fun _ => .ok (some true)
    getAccount := fun _ => .ok (some { accountID := acct0, privileged := true })
    isAdmin := fun _ _ => .ok false
    getUserGroups := fun _ _ => .ok []
    avpDecision := fun _ => .ok .deny }

/-- World in which the account is in the configmap. -/
def wConfigmap : World :=
  { configmap := some [acct0]
    getPrivileged := fun _ => .ok none
    getAccount := fun _ => .ok none
    isAdmin := fun _ _ => .ok false
    getUserGroups := fun _ _ => .ok []
    avpDecision := fun _ => .ok .deny }

/-- World in which the request falls through every bypass and reaches the
evaluator, which allows it. -/
def wEvaluatorAllow : World :=
  { configmap := some []
    getPrivileged := fun _ => .ok (some false)
    getAccount := fun _ =>
      .ok (some { accountID := acct0, policyStoreID := "ps-1".toList })
    isAdmin := fun _ _ => .ok false
    getUserGroups := fun _ _ => .ok ["g1".toList]
    avpDecision := fun _ => .ok .allow }

/-- Request used by the entity-graph scenario: one group, no resource tags. -/
def reqOneGroup : AuthzRequest :=
  { accountID := acct0, callerARN := caller0,
    action := "ListClusters".toList, resource := "*".toList }

/-- Update world holding one attachment of the template being updated. -/
def wOneAttachment : UpdateWorld :=
  ⟨fun _ _ =>
    [{ attachmentID := "att-1".toList, policyID := "pol-1".toList,
       targetType := "group".toList, targetID := "g1".toList,
       avpPolicyID := "avp-1".toList }]⟩

/-- Claim C10 amended: on the local cedar-agent adapter, every CreatePolicy
call issues the bulk replace with the empty list before posting the new
policy, whatever the call outcomes; when the clear succeeds and the post
succeeds the agent afterwards holds exactly the new policy; when the clear
fails (warn-and-continue) and the post succeeds, the earlier policies
survive alongside the new one. -/
theorem mockCreatePolicy_clear_then_post (st : AgentState) (clearOk postOk : Bool)
    (policyID cedarPolicy : Str) :
    (mockCreatePolicy st clearOk postOk policyID cedarPolicy).2.1 =
      [.putPolicies [], .postPolicy policyID cedarPolicy] ∧
    (clearOk = true → postOk = true →
      (mockCreatePolicy st clearOk postOk policyID cedarPolicy).1 =
        ⟨[(policyID, cedarPolicy)]⟩) ∧
    (clearOk = false → postOk = true →
      (mockCreatePolicy st clearOk postOk policyID cedarPolicy).1 =
        ⟨st.policies ++ [(policyID, cedarPolicy)]⟩) := by
  cases clearOk <;> cases postOk <;>
    simp [mockCreatePolicy, clearPolicies, postPolicy]

/-- Claim C10 witness: with both calls succeeding, an agent holding one old
policy ends up holding exactly the new one. -/
theorem mockCreatePolicy_clear_then_post_witness :
    (mockCreatePolicy ⟨[("p0".toList, "permit old".toList)]⟩ true true
      ("p1".toList) ("permit new".toList)).1 =
      ⟨[("p1".toList, "permit new".toList)]⟩ :=
  (mockCreatePolicy_clear_then_post ⟨[("p0".toList, "permit old".toList)]⟩ true true
    ("p1".toList) ("permit new".toList)).2.1 rfl rfl

/-- Claim C10 counterexample: when the clear PUT fails, CreatePolicy warns
and continues, so after the attach the agent holds the policy of the
earlier attachment together with the new one, not only the new one. -/
theorem mockCreatePolicy_clear_failure_keeps_old :
    (mockCreatePolicy ⟨[("p0".toList, "permit old".toList)]⟩ false true
      ("p1".toList) ("permit new".toList)).1 =
      ⟨[("p0".toList, "permit old".toList), ("p1".toList, "permit new".toList)]⟩ ∧
    (mockCreatePolicy ⟨[("p0".toList, "permit old".toList)]⟩ false true
      ("p1".toList) ("permit new".toList)).1 ≠
      ⟨[("p1".toList, "permit new".toList)]⟩ ∧
    (mockCreatePolicy ⟨[("p0".toList, "permit old".toList)]⟩ false true
      ("p1".toList) ("permit new".toList)).2.2 = .ok () := by
  decide

/-- Claim C7, the code evaluated at the failing input: UpdatePolicy on a
valid document updates only the template row; although the update world
records an existing attachment of this template, no attachment listing and
no evaluator policy update is issued. -/
theorem updatePolicy_ignores_attachments :
    (wOneAttachment.attachmentsByPolicy acct0 ("pol-1".toList)).length = 1 ∧
    UpdatePolicy wOneAttachment acct0 ("pol-1".toList) ("n".toList) ("d".toList)
        (some docListClusters) =
      ([.storeUpdatePolicy acct0 ("pol-1".toList)], .ok) := by
  constructor
  · rfl
  · decide

/-- Claim C4 amended: Authorize never reads the enabled flag; the trace and
outcome are identical for any two configurations that differ only in
enabled.  (When the flag is false the surrounding service skips this
pipeline in favour of the legacy allowlist middleware; the pipeline itself
is unchanged.) -/
theorem authorize_independent_of_enabled (cfg : Config) (b : Bool) (w : World)
    (req : AuthzRequest) :
    Authorize { cfg with enabled := b } w req = Authorize cfg w req := rfl

/-- Claim C4 counterexample: with the enable flag false and an account that
is neither privileged nor provisioned, Authorize returns the
account-not-provisioned denial rather than Allow. -/
theorem authorize_disabled_not_allow :
    cfgDisabled.enabled = false ∧
    Authorize cfgDisabled wNotProvisioned req0 =
      ([.dbGetPrivileged acct0, .dbGetAccount acct0], .notProvisioned) := by
  decide

/-- Claim C6, the code evaluated at the failing input: the two condition
entries of this statement form the same Go map, yet iterating them in the
two possible orders makes translateStatement emit byte-different rule texts;
the conjunction order of the when clause follows the unspecified map
iteration order. -/
theorem translateStatement_order_dependent :
    [condEntryA, condEntryB].Perm [condEntryB, condEntryA] ∧
    translateStatement stmtCondAB ("user".toList) caller0 ≠
      translateStatement stmtCondBA ("user".toList) caller0 := by
  constructor
  · exact List.Perm.swap condEntryB condEntryA []
  · decide

/-- Claim C8 counterexample: NumericEquals and StringEqualsIfExists belong
to the implemented operator set of the translator, yet the validator rejects
documents using them. -/
theorem validate_rejects_translator_operators :
    Validate (some docNumericEquals) ≠ [] ∧
    Validate (some docIfExists) ≠ [] ∧
    (translateCondition ("NumericEquals".toList) ("aws:PrincipalAccount".toList)
        (GoVal.int 100)).isOk = true ∧
    (translateCondition ("StringEqualsIfExists".toList)
        ("rosa:ResourceTag/Environment".toList) (GoVal.str ("dev".toList))).isOk = true := by
  decide

/-- Claim C8 amended: for a supported condition key, the validator accepts a
condition operator exactly when it is one of the eleven members of its
validOperators set (the string, ARN, Bool and the two ForAllValues/
ForAnyValue StringEquals operators); every other operator of the
translator, IfExists-suffixed ones included, is rejected. -/
theorem validateConditions_operator_characterization (operator pre : Str) (v : GoVal) :
    validateConditions [(operator, [("aws:PrincipalAccount".toList, v)])] pre = [] ↔
      operator ∈ validOperators := by
  constructor
  · intro h
    by_contra hmem
    simp [validateConditions, hmem] at h
  · intro hmem
    simp [validateConditions, hmem]
    decide

/-- Helper: a run of Authorize that ends in Allow with the privileged source
is exactly the privileged-checker prefix: the checker returned true and the
trace is the checker trace. -/
theorem authorize_allow_priv_inv (cfg : Config) (w : World) (req : AuthzRequest)
    (h : (Authorize cfg w req).2 = .allow .privileged) :
    Authorize cfg w req = ((checkerIsPrivileged w req.accountID).1, .allow .privileged) ∧
    (checkerIsPrivileged w req.accountID).2 = .ok true := by
  rcases hcp : checkerIsPrivileged w req.accountID with ⟨t1, pr⟩
  rcases pr with e | b
  · exfalso; simp only [Authorize, hcp] at h; simp at h
  · cases b
    · exfalso
      rcases ha : w.getAccount req.accountID with e | oa
      · simp only [Authorize, hcp, ha] at h; simp at h
      · rcases oa with _ | acct
        · simp only [Authorize, hcp, ha] at h; simp at h
        · rcases hb : w.isAdmin req.accountID req.callerARN with e | ab
          · simp only [Authorize, hcp, ha, hb] at h; simp at h
          · cases ab
            · rcases hg : w.getUserGroups req.accountID req.callerARN with e | groups
              · simp only [Authorize, hcp, ha, hb, hg] at h; simp at h
              · rcases hd : w.avpDecision
                    (buildAVPRequest req groups acct.policyStoreID) with e | d
                · simp only [Authorize, hcp, ha, hb, hg, hd] at h; simp at h
                · cases d
                  · simp only [Authorize, hcp, ha, hb, hg, hd] at h; simp at h
                  · simp only [Authorize, hcp, ha, hb, hg, hd] at h; simp at h
            · simp only [Authorize, hcp, ha, hb] at h; simp at h
    · refine ⟨?_, by simp [hcp]⟩
      simp only [Authorize, hcp]

/-- Claim C2 amended: the privileged layer consults the in-process configmap
cache first, with no I/O at all on a configmap hit; when the configmap check
fails, step 1 itself reads the accounts table (the privileged attribute) in
the durable store before step 2 is reached; and a run that ends in Allow by
privileged bypass never contacts the evaluator, the provisioning read, the
admin read or the group read. -/
theorem privileged_bypass_contact (cfg : Config) (w : World) (req : AuthzRequest) :
    (isInConfigmap w req.accountID = true →
      Authorize cfg w req = ([], .allow .privileged)) ∧
    (isInConfigmap w req.accountID = false →
      (checkerIsPrivileged w req.accountID).1 = [.dbGetPrivileged req.accountID]) ∧
    ((Authorize cfg w req).2 = .allow .privileged →
      Effect.avpIsAuthorized ∉ (Authorize cfg w req).1 ∧
      Effect.dbGetAccount req.accountID ∉ (Authorize cfg w req).1 ∧
      Effect.dbIsAdmin req.accountID req.callerARN ∉ (Authorize cfg w req).1 ∧
      Effect.dbGetUserGroups req.accountID req.callerARN ∉ (Authorize cfg w req).1) := by
  refine ⟨?_, ?_, ?_⟩
  · intro hin
    have hcp : checkerIsPrivileged w req.accountID = ([], .ok true) := by
      simp [checkerIsPrivileged, hin]
    simp only [Authorize, hcp]
  · intro hin
    simp [checkerIsPrivileged, hin]
  · intro hallow
    obtain ⟨heq, -⟩ := authorize_allow_priv_inv cfg w req hallow
    rw [heq]
    cases hin : isInConfigmap w req.accountID
    · have ht : (checkerIsPrivileged w req.accountID).1 =
          [.dbGetPrivileged req.accountID] := by
        simp [checkerIsPrivileged, hin]
      rw [ht]
      refine ⟨by simp, by simp, by simp, by simp⟩
    · have ht : (checkerIsPrivileged w req.accountID).1 = [] := by
        simp [checkerIsPrivileged, hin]
      rw [ht]
      simp

/-- Claim C2 witness: a configmap-privileged account is allowed with an
empty trace. -/
theorem privileged_bypass_contact_witness :
    Authorize ({} : Config) wConfigmap req0 = ([], .allow .privileged) :=
  (privileged_bypass_contact ({} : Config) wConfigmap req0).1 (by decide)

/-- Claim C2 counterexample: for an account that is privileged only in the
database, the run ends in Allow by privileged bypass yet the durable store
was contacted during step 1 (the accounts-table read of
isPrivilegedInDB). -/
theorem privileged_bypass_contacts_store :
    (Authorize ({} : Config) wDbPrivileged req0).2 = .allow .privileged ∧
    Effect.dbGetPrivileged acct0 ∈ (Authorize ({} : Config) wDbPrivileged req0).1 := by
  decide

/-- Claim C1: Authorize evaluates its layers in the strict order privileged
bypass, account-provisioned check, admin bypass, group lookup, evaluator
query, with short-circuit: a successful privileged check allows with only
the checker trace; an absent account row denies with AccountNotProvisioned
before any admin, group or evaluator contact; a successful admin check
allows before any group or evaluator contact; and otherwise the outcome is
the evaluator decision after all five layers ran in order. -/
theorem authorize_layer_order (cfg : Config) (w : World) (req : AuthzRequest) :
    ((checkerIsPrivileged w req.accountID).2 = .ok true →
      Authorize cfg w req =
        ((checkerIsPrivileged w req.accountID).1, .allow .privileged)) ∧
    (∀ tPriv, checkerIsPrivileged w req.accountID = (tPriv, .ok false) →
      (w.getAccount req.accountID = .ok none →
        Authorize cfg w req =
          (tPriv ++ [.dbGetAccount req.accountID], .notProvisioned)) ∧
      (∀ acct, w.getAccount req.accountID = .ok (some acct) →
        (w.isAdmin req.accountID req.callerARN = .ok true →
          Authorize cfg w req =
            (tPriv ++ [.dbGetAccount req.accountID,
                       .dbIsAdmin req.accountID req.callerARN], .allow .admin)) ∧
        (w.isAdmin req.accountID req.callerARN = .ok false →
          ∀ groups, w.getUserGroups req.accountID req.callerARN = .ok groups →
          ∀ d, w.avpDecision (buildAVPRequest req groups acct.policyStoreID) = .ok d →
            Authorize cfg w req =
              (tPriv ++ [.dbGetAccount req.accountID,
                         .dbIsAdmin req.accountID req.callerARN,
                         .dbGetUserGroups req.accountID req.callerARN,
                         .avpIsAuthorized],
               if d = .allow then .allow .evaluator else .deny)))) := by
  refine ⟨?_, ?_⟩
  · intro h2
    rcases hcp : checkerIsPrivileged w req.accountID with ⟨t1, pr⟩
    rw [hcp] at h2
    simp at h2
    subst h2
    simp only [Authorize, hcp]
  · intro tPriv hpair
    refine ⟨?_, ?_⟩
    · intro ha
      simp only [Authorize, hpair, ha]
    · intro acct ha
      refine ⟨?_, ?_⟩
      · intro hb
        simp only [Authorize, hpair, ha, hb]
        simp
      · intro hb groups hg d hd
        simp only [Authorize, hpair, ha, hb, hg, hd]
        simp

/-- Claim C1 witness: a request that falls through every bypass reaches the
evaluator after the four store reads, in order, and gets its decision. -/
theorem authorize_layer_order_witness :
    Authorize ({} : Config) wEvaluatorAllow req0 =
      ([.dbGetPrivileged acct0, .dbGetAccount acct0, .dbIsAdmin acct0 caller0,
        .dbGetUserGroups acct0 caller0, .avpIsAuthorized], .allow .evaluator) := by
  have h := (authorize_layer_order ({} : Config) wEvaluatorAllow req0).2
      [.dbGetPrivileged acct0] (by decide)
  have h2 := (h.2 { accountID := acct0, policyStoreID := "ps-1".toList } (by decide)).2
      (by decide) ["g1".toList] (by decide) .allow (by decide)
  simpa using h2

/-- Helper: every entity item built for a group id passes the group test of
buildCedarAgentRequest, so the filter keeps the whole group list. -/
theorem filter_group_items (l : List Str) :
    (l.map (fun groupID =>
      ({ identifier := ⟨['R','O','S','A',':',':','G','r','o','u','p'], groupID⟩ } :
        EntityItem))).filter isGroupEntity =
      l.map (fun groupID =>
        ({ identifier := ⟨['R','O','S','A',':',':','G','r','o','u','p'], groupID⟩ } :
          EntityItem)) := by
  induction l with
  | nil => rfl
  | cons g gs ih => simp +decide [List.filter_cons, isGroupEntity, ih]

/-- Claim C5 amended, local-adapter path: the request that reaches the
cedar-agent evaluator carries one entity per group id (no attributes, no
parents), one principal entity whose parents are exactly the uids of those
groups, present precisely when any groups exist, and one resource entity
with the arn attribute. -/
theorem cedar_request_entity_graph (req : AuthzRequest) (groups : List Str) (psid : Str) :
    (buildCedarAgentRequest (buildAVPRequest req groups psid)).entities =
      groups.map (fun g =>
        ({ uid := mkUID ("ROSA::Group".toList) g } : CedarEntity)) ++
      (if groups.isEmpty then [] else
        [({ uid := mkUID ("ROSA::Principal".toList) req.callerARN,
            parents := groups.map (fun g => mkUID ("ROSA::Group".toList) g) } :
          CedarEntity)]) ++
      [({ uid := mkUID ("ROSA::Resource".toList) req.resource,
          attrs := [("arn".toList, req.resource)] } : CedarEntity)] := by
  simp only [buildAVPRequest, buildCedarAgentRequest]
  by_cases hrt : req.resourceTags.isEmpty <;>
    simp only [hrt] <;>
    cases groups <;>
      simp +decide [List.filter_cons, List.filter_append, filter_group_items,
        isGroupEntity, List.map_map, Function.comp_def, mkUID, quoted]

/-- Claim C5 counterexample, hosted path: for a request with one group and
no resource tags, the IsAuthorized input built by buildAVPRequest contains
no entity with any parents (the principal entity never carries the group
ids) and no resource entity at all. -/
theorem avp_request_entity_graph_missing_parents :
    ((buildAVPRequest reqOneGroup ["g1".toList] ("ps-1".toList)).entities.all
      (fun e => e.parents.isEmpty)) = true ∧
    ((buildAVPRequest reqOneGroup ["g1".toList] ("ps-1".toList)).entities.all
      (fun e => !(e.identifier.entityType == "ROSA::Resource".toList))) = true := by
  decide

/-- Claim C9: wildcard expansion closure.  Every expansion is inside the
catalog together with the literal residual (the pattern after the rosa:
namespace is stripped); the bare star and rosa:* expand to the whole
catalog; a rosa:stem* pattern expands to the catalog actions starting with
the stem when any match and otherwise keeps the literal residual; and
matching is case-sensitive (rosa:list* matches nothing in the catalog and
keeps the literal). -/
theorem expandAction_spec :
    (∀ p a, a ∈ expandAction p → a ∈ allActions ∨ a = trimPre p ("rosa:".toList)) ∧
    expandAction ("*".toList) = allActions ∧
    expandAction ("rosa:*".toList) = allActions ∧
    (∀ stem, stem ≠ [] →
      expandAction (("rosa:".toList) ++ stem ++ ("*".toList)) =
        (if (allActions.filter (fun a => hasPre a stem)).length > 0
         then allActions.filter (fun a => hasPre a stem)
         else [stem ++ "*".toList])) ∧
    expandAction ("rosa:list*".toList) = ["list*".toList] := by
  refine ⟨?_, by decide, by decide, ?_, by decide⟩
  · intro p a ha
    simp only [expandAction] at ha
    split_ifs at ha with h1 h2 h3
    · exact Or.inl ha
    · exact Or.inl (List.mem_filter.mp ha).1
    · exact Or.inr (List.mem_singleton.mp ha)
    · exact Or.inr (List.mem_singleton.mp ha)
  · intro stem hstem
    have htrim : trimPre (("rosa:".toList) ++ stem ++ ("*".toList)) ("rosa:".toList) =
        stem ++ "*".toList := by
      unfold trimPre
      rw [List.append_assoc]
      rw [if_pos (List.isPrefixOf_iff_prefix.mpr (List.prefix_append _ _))]
      exact List.drop_left _ _
    have hne : ((stem ++ "*".toList) == "*".toList) = false := by
      refine beq_eq_false_iff_ne.mpr ?_
      intro he
      have hl : stem.length + 1 = 1 := by simpa using congrArg List.length he
      have hz : stem.length = 0 := by omega
      exact hstem (List.length_eq_zero.mp hz)
    have hsuf : hasSuf (stem ++ "*".toList) ("*".toList) = true := by
      unfold hasSuf
      exact List.isSuffixOf_iff_suffix.mpr (List.suffix_append _ _)
    have htsuf : trimSuf (stem ++ "*".toList) ("*".toList) = stem := by
      unfold trimSuf
      rw [if_pos (List.isSuffixOf_iff_suffix.mpr (List.suffix_append _ _))]
      have hlen : (stem ++ "*".toList).length - ("*".toList).length = stem.length := by
        simp
      rw [hlen]
      exact List.take_left _ _
    simp only [expandAction, htrim, hne, hsuf, htsuf, Bool.false_eq_true, if_false,
      if_true]

/-- Claim C9 witness: the closure instance for rosa:Untag* at UntagResource,
and the stem expansion at the concrete stem Desc. -/
theorem expandAction_spec_witness :
    ("UntagResource".toList ∈ allActions ∨
      "UntagResource".toList = trimPre ("rosa:Untag*".toList) ("rosa:".toList)) ∧
    ("Desc".toList ≠ [] ∧
      expandAction (("rosa:".toList) ++ "Desc".toList ++ ("*".toList)) =
        (if (allActions.filter (fun a => hasPre a ("Desc".toList))).length > 0
         then allActions.filter (fun a => hasPre a ("Desc".toList))
         else ["Desc".toList ++ "*".toList])) :=
  ⟨expandAction_spec.1 ("rosa:Untag*".toList) ("UntagResource".toList) (by decide),
   ⟨by decide, expandAction_spec.2.2.2.1 ("Desc".toList) (by decide)⟩⟩

/-- Helper: translateStringEquals never fails. -/
theorem translateStringEquals_ok (key : Str) (v : GoVal) (neg : Bool) :
    ∃ c, translateStringEquals key v neg = .ok c := by
  cases v <;> cases neg <;> simp [translateStringEquals]

/-- Helper: translateStringLike never fails. -/
theorem translateStringLike_ok (key : Str) (v : GoVal) (neg : Bool) :
    ∃ c, translateStringLike key v neg = .ok c := by
  cases v <;> cases neg <;> simp [translateStringLike]

/-- Helper: translateBool never fails. -/
theorem translateBool_ok (key : Str) (v : GoVal) :
    ∃ c, translateBool key v = .ok c := ⟨_, rfl⟩

/-- Helper: translateForAllValues succeeds on every array value. -/
theorem translateForAllValues_ok (key : Str) (v : GoVal) (h : isArr v = true) :
    ∃ c, translateForAllValues key v = .ok c := by
  cases v <;> simp [isArr] at h <;> simp [translateForAllValues]

/-- Helper: translateForAnyValue succeeds on every array value. -/
theorem translateForAnyValue_ok (key : Str) (v : GoVal) (h : isArr v = true) :
    ∃ c, translateForAnyValue key v = .ok c := by
  cases v <;> simp [isArr] at h <;> simp [translateForAnyValue]

/-- Helper: for every operator the validator accepts, the translator
succeeds, provided the two set operators receive an array value. -/
theorem translateCondition_ok_of_valid (operator key : Str) (v : GoVal)
    (hop : operator ∈ validOperators)
    (harr : (operator = "ForAllValues:StringEquals".toList ∨
             operator = "ForAnyValue:StringEquals".toList) → isArr v = true) :
    ∃ c, translateCondition operator key v = .ok c := by
  simp only [validOperators, List.map, List.mem_cons, List.not_mem_nil, or_false] at hop
  rcases hop with h | h | h | h | h | h | h | h | h | h | h <;> subst h
  · rw [show translateCondition ("StringEquals".toList) key v =
        translateStringEquals key v false from rfl]
    exact translateStringEquals_ok key v false
  · rw [show translateCondition ("StringNotEquals".toList) key v =
        translateStringEquals key v true from rfl]
    exact translateStringEquals_ok key v true
  · rw [show translateCondition ("StringLike".toList) key v =
        translateStringLike key v false from rfl]
    exact translateStringLike_ok key v false
  · rw [show translateCondition ("StringNotLike".toList) key v =
        translateStringLike key v true from rfl]
    exact translateStringLike_ok key v true
  · rw [show translateCondition ("ArnEquals".toList) key v =
        translateStringEquals key v false from rfl]
    exact translateStringEquals_ok key v false
  · rw [show translateCondition ("ArnLike".toList) key v =
        translateStringLike key v false from rfl]
    exact translateStringLike_ok key v false
  · rw [show translateCondition ("ArnNotEquals".toList) key v =
        translateStringEquals key v true from rfl]
    exact translateStringEquals_ok key v true
  · rw [show translateCondition ("ArnNotLike".toList) key v =
        translateStringLike key v true from rfl]
    exact translateStringLike_ok key v true
  · rw [show translateCondition ("Bool".toList) key v =
        translateBool key v from rfl]
    exact translateBool_ok key v
  · rw [show translateCondition ("ForAllValues:StringEquals".toList) key v =
        translateForAllValues key v from rfl]
    exact translateForAllValues_ok key v (harr (Or.inl rfl))
  · rw [show translateCondition ("ForAnyValue:StringEquals".toList) key v =
        translateForAnyValue key v from rfl]
    exact translateForAnyValue_ok key v (harr (Or.inr rfl))

/-- Helper: the key loop succeeds when every pair of the condition block
translates. -/
theorem condKeyClauses_ok (operator : Str) (cond : List (Str × GoVal))
    (hop : operator ∈ validOperators)
    (harr : ∀ kv ∈ cond,
      (operator = "ForAllValues:StringEquals".toList ∨
       operator = "ForAnyValue:StringEquals".toList) → isArr kv.2 = true) :
    ∃ cs, condKeyClauses operator cond = .ok cs := by
  induction cond with
  | nil => exact ⟨[], rfl⟩
  | cons kv rest ih =>
    obtain ⟨c, hc⟩ := translateCondition_ok_of_valid operator kv.1 kv.2 hop
      (fun h => harr kv (List.mem_cons_self kv rest) h)
    obtain ⟨cs, hcs⟩ := ih (fun kv2 h2 h3 => harr kv2 (List.mem_cons_of_mem kv h2) h3)
    refine ⟨if c ≠ [] then c :: cs else cs, ?_⟩
    show condKeyClauses operator (kv :: rest) = _
    rw [condKeyClauses]
    rcases kv with ⟨key, value⟩
    simp only at hc
    rw [hc, hcs]

/-- Helper: the operator loop succeeds when every operator of the condition
block is valid and set-operator values are arrays. -/
theorem condClauses_ok (conditions : List (Str × List (Str × GoVal)))
    (hops : ∀ oc ∈ conditions, oc.1 ∈ validOperators)
    (harr : ∀ oc ∈ conditions, ∀ kv ∈ oc.2,
      (oc.1 = "ForAllValues:StringEquals".toList ∨
       oc.1 = "ForAnyValue:StringEquals".toList) → isArr kv.2 = true) :
    ∃ cs, condClauses conditions = .ok cs := by
  induction conditions with
  | nil => exact ⟨[], rfl⟩
  | cons oc rest ih =>
    obtain ⟨cs, hcs⟩ := condKeyClauses_ok oc.1 oc.2
      (hops oc (List.mem_cons_self oc rest))
      (fun kv h2 h3 => harr oc (List.mem_cons_self oc rest) kv h2 h3)
    obtain ⟨others, hothers⟩ := ih
      (fun oc2 h2 => hops oc2 (List.mem_cons_of_mem oc h2))
      (fun oc2 h2 kv h3 h4 => harr oc2 (List.mem_cons_of_mem oc h2) kv h3 h4)
    refine ⟨cs ++ others, ?_⟩
    rw [condClauses]
    rcases oc with ⟨operator, cond⟩
    simp only at hcs
    rw [hcs, hothers]

/-- Helper: buildWhenClause succeeds whenever the clause collection does. -/
theorem buildWhenClause_ok (conditions : List (Str × List (Str × GoVal)))
    (hops : ∀ oc ∈ conditions, oc.1 ∈ validOperators)
    (harr : ∀ oc ∈ conditions, ∀ kv ∈ oc.2,
      (oc.1 = "ForAllValues:StringEquals".toList ∨
       oc.1 = "ForAnyValue:StringEquals".toList) → isArr kv.2 = true) :
    ∃ c, buildWhenClause conditions = .ok c := by
  obtain ⟨cs, hcs⟩ := condClauses_ok conditions hops harr
  by_cases h : cs.isEmpty
  · refine ⟨[], ?_⟩
    rw [buildWhenClause, hcs]
    simp [h]
  · refine ⟨List.intercalate (" && ".toList) cs, ?_⟩
    rw [buildWhenClause, hcs]
    simp [h]

/-- Helper: buildActionClause succeeds on every non-empty action list. -/
theorem buildActionClause_ok (actions : List Str) (h : actions.isEmpty = false) :
    ∃ c, buildActionClause actions = .ok c := by
  rw [buildActionClause, h]
  simp only [Bool.false_eq_true, if_false]
  split_ifs
  · exact ⟨_, rfl⟩
  · split <;> exact ⟨_, rfl⟩

/-- Helper: a statement with a non-empty action list, validator-accepted
condition operators and array-valued set operators translates. -/
theorem translateStatement_ok (stmt : Statement) (pt pid : Str)
    (hact : stmt.actions.isEmpty = false)
    (hops : ∀ oc ∈ stmt.conditions, oc.1 ∈ validOperators)
    (harr : ∀ oc ∈ stmt.conditions, ∀ kv ∈ oc.2,
      (oc.1 = "ForAllValues:StringEquals".toList ∨
       oc.1 = "ForAnyValue:StringEquals".toList) → isArr kv.2 = true) :
    ∃ c, translateStatement stmt pt pid = .ok c := by
  obtain ⟨ac, hac⟩ := buildActionClause_ok stmt.actions hact
  rw [translateStatement, hac]
  by_cases hc : stmt.conditions.isEmpty
  · simp only [hc, Bool.not_true, Bool.false_eq_true, if_false]
    split <;> exact ⟨_, rfl⟩
  · obtain ⟨wc, hwc⟩ :=
      buildWhenClause_ok stmt.conditions hops harr
    simp only [eq_false_of_ne_true hc, Bool.not_false, if_true, hwc]
    split <;> exact ⟨_, rfl⟩

/-- Helper: an error-free condition block uses only validator-accepted
operators. -/
theorem validateConditions_ops (conds : List (Str × List (Str × GoVal))) (pre : Str)
    (h : validateConditions conds pre = []) :
    ∀ oc ∈ conds, oc.1 ∈ validOperators := by
  induction conds with
  | nil => simp
  | cons oc rest ih =>
    rcases oc with ⟨operator, cond⟩
    rw [validateConditions] at h
    cases hvo : validOperators.contains operator
    · rw [hvo] at h
      simp at h
    · rw [hvo] at h
      simp only [if_true] at h
      rw [List.append_eq_nil] at h
      intro oc2 hmem
      rcases List.mem_cons.mp hmem with heq | hmem2
      · subst heq
        simpa using hvo
      · exact ih h.2 oc2 hmem2

/-- Helper: an error-free statement has a non-empty action list and only
validator-accepted condition operators. -/
theorem validateStatement_parts (stmt : Statement) (i : Nat) (sids : List Str)
    (h : validateStatement stmt i sids = []) :
    stmt.actions.isEmpty = false ∧
    ∀ oc ∈ stmt.conditions, oc.1 ∈ validOperators := by
  rw [validateStatement] at h
  simp only [List.append_eq_nil] at h
  refine ⟨?_, validateConditions_ops _ _ h.2⟩
  by_cases hae : stmt.actions.isEmpty
  · exfalso
    have hc := h.1.1.1.1.2
    rw [hae] at hc
    simp at hc
  · exact eq_false_of_ne_true hae

/-- Helper: an error-free statement loop gives the per-statement facts for
every statement, whatever index and sid set each was validated under. -/
theorem validateStatements_all (stmts : List Statement) :
    ∀ i sids, validateStatements stmts i sids = [] →
    ∀ stmt ∈ stmts, stmt.actions.isEmpty = false ∧
      ∀ oc ∈ stmt.conditions, oc.1 ∈ validOperators := by
  induction stmts with
  | nil =>
    intro i sids h stmt hmem
    exact absurd hmem (List.not_mem_nil stmt)
  | cons s rest ih =>
    intro i sids h
    rw [validateStatements, List.append_eq_nil] at h
    intro stmt hmem
    rcases List.mem_cons.mp hmem with heq | hmem2
    · subst heq
      exact validateStatement_parts stmt i sids h.1
    · exact ih (i + 1) (updateSids s sids) h.2 stmt hmem2

/-- Helper: the statement loop of the translator succeeds when every
statement translates. -/
theorem translateStatements_ok (stmts : List Statement) (pt pid : Str)
    (hparts : ∀ stmt ∈ stmts, stmt.actions.isEmpty = false ∧
      ∀ oc ∈ stmt.conditions, oc.1 ∈ validOperators)
    (harr : ∀ stmt ∈ stmts, ∀ oc ∈ stmt.conditions, ∀ kv ∈ oc.2,
      (oc.1 = "ForAllValues:StringEquals".toList ∨
       oc.1 = "ForAnyValue:StringEquals".toList) → isArr kv.2 = true) :
    ∃ cs, translateStatements stmts pt pid = .ok cs := by
  induction stmts with
  | nil => exact ⟨[], rfl⟩
  | cons s rest ih =>
    obtain ⟨c, hc⟩ := translateStatement_ok s pt pid
      (hparts s (List.mem_cons_self s rest)).1
      (hparts s (List.mem_cons_self s rest)).2
      (harr s (List.mem_cons_self s rest))
    obtain ⟨cs, hcs⟩ := ih
      (fun stmt h2 => hparts stmt (List.mem_cons_of_mem s h2))
      (fun stmt h2 => harr stmt (List.mem_cons_of_mem s h2))
    exact ⟨c :: cs, by simp only [translateStatements, hc, hcs]⟩

/-- Claim C3 amended: validator soundness holds for documents whose
ForAllValues:StringEquals and ForAnyValue:StringEquals condition values are
arrays: if validation reports no errors and that side condition holds, then
translation succeeds for every principal binding. -/
theorem validate_ok_translate_succeeds (p : V0Policy) (pt pid : Str)
    (hok : Validate (some p) = [])
    (harr : ∀ stmt ∈ p.statements, ∀ oc ∈ stmt.conditions, ∀ kv ∈ oc.2,
      (oc.1 = "ForAllValues:StringEquals".toList ∨
       oc.1 = "ForAnyValue:StringEquals".toList) → isArr kv.2 = true) :
    (TranslateWithPrincipal p pt pid).isOk = true := by
  have hs : validateStatements p.statements 0 [] = [] := by
    rw [Validate] at hok
    simp only [List.append_eq_nil] at hok
    exact hok.2
  obtain ⟨cs, hcs⟩ := translateStatements_ok p.statements pt pid
    (validateStatements_all p.statements 0 [] hs) harr
  rw [TranslateWithPrincipal, hcs]
  rfl

/-- Claim C3 witness: a valid document with an array-valued
ForAllValues:StringEquals condition translates. -/
theorem validate_ok_translate_succeeds_witness :
    (TranslateWithPrincipal docForAllValuesArr ("user".toList) ("arn:x".toList)).isOk =
      true :=
  validate_ok_translate_succeeds docForAllValuesArr ("user".toList) ("arn:x".toList)
    (by decide) (by decide)

/-- Claim C3 counterexample: a document carrying ForAllValues:StringEquals
with a scalar value passes validation yet fails translation. -/
theorem validate_ok_translate_fails :
    Validate (some docForAllValuesScalar) = [] ∧
    (TranslateWithPrincipal docForAllValuesScalar ("user".toList)
      ("arn:x".toList)).isOk = false := by
  decide
